import Mathlib

/-!
Shallow embedding of the core of the crypto-portfolio-optimizer repository
(src/data.py and src/optimizer.py) and proofs about its behaviour.

Conventions:
* Python floats are modelled by exact rationals (ℚ).
* A pandas cell that may be NaN/missing is modelled by `Option ℚ` (`none` = NaN).
* External effects (provider HTTP calls, cache files, the convex solver) are
  modelled by explicit oracle parameters; the surrounding control flow is
  translated from the source.
-/

set_option allowUnsafeReducibility true

attribute [local semireducible] Rat.add Rat.mul Rat.sub Rat.inv Rat.ofScientific

namespace CryptoOpt

/-! ## Cache Store (src/data.py, lines 69-97)

A cached record is keyed by `(coin_id, days)` and holds
`{timestamp: time.time(), data: ...}`.  The file system is modelled as an
association list where a fresh write is consulted first (last writer wins).
`time.time()` at write and read is passed explicitly. -/

/-- A historical series as stored in the cache: `[[timestampMs, price], ...]`. -/
abbrev Series := List (Int × ℚ)

/-- Cache key: `(coin_id, days)`, as in `get_cache_path` (data.py line 69). -/
abbrev CacheKey := String × Nat

/-- The cache store: key → (fetchedAt seconds, series). -/
abbrev Cache := List (CacheKey × (ℚ × Series))

/-- `save_to_cache` (data.py lines 72-78): writes `{timestamp: now, data}` for the
key; modelled by prepending, so a later write shadows an earlier one. -/
def saveToCache (c : Cache) (key : CacheKey) (now : ℚ) (data : Series) : Cache :=
  (key, (now, data)) :: c

/-- `load_from_cache` (data.py lines 80-97) with the default `max_age_hours=24`:
return `None` if no record exists or if `now - timestamp > 24 * 3600`,
otherwise the stored data. -/
def loadFromCache (c : Cache) (key : CacheKey) (now : ℚ) : Option Series :=
  match List.lookup key c with
  | none => none
  | some (fetchedAt, data) =>
      if now - fetchedAt > 24 * 3600 then none else some data

/-! ## Provider symbol table (src/data.py, lines 44-66) -/

/-- `symbol_to_id` (data.py lines 44-66): the static symbol → CoinGecko-id table. -/
def symbolToId (s : String) : Option String :=
  match s with
  | "BTC" => some "bitcoin"
  | "ETH" => some "ethereum"
  | "USDT" => some "tether"
  | "BNB" => some "binancecoin"
  | "SOL" => some "solana"
  | "XRP" => some "ripple"
  | "ADA" => some "cardano"
  | "DOGE" => some "dogecoin"
  | "AVAX" => some "avalanche-2"
  | "DOT" => some "polkadot"
  | "MATIC" => some "matic-network"
  | "LTC" => some "litecoin"
  | "TRX" => some "tron"
  | "BCH" => some "bitcoin-cash"
  | "LINK" => some "chainlink"
  | "XLM" => some "stellar"
  | "ATOM" => some "cosmos"
  | "FIL" => some "filecoin"
  | "UNI" => some "uniswap"
  | "ICP" => some "internet-computer"
  | "ETC" => some "ethereum-classic"
  | _ => none

/-! ## History Store (src/data.py, lines 292-354)

`get_historical_prices` first filters the input symbols through
`symbol_to_id`.  For each recognized symbol it tries the cache, then the
primary provider, then the alternate provider; a symbol whose every path
fails goes to `missing_symbols`, otherwise its series becomes one column of
the matrix.  The whole cache/provider chain for one symbol is deterministic
within a request and is modelled by one oracle `fetch : String → Option Series`.
The combining steps (data.py lines 346-352: concat on axis 1, sort_index,
resample('D').last(), ffill, bfill) transform the rows of the combined frame
and leave the column list unchanged, so the returned matrix is modelled by
its list of `(symbol, series)` columns. -/

/-- The per-symbol accumulation loop of `get_historical_prices`
(data.py lines 301-340): a successful fetch appends a one-column frame to
`all_prices`, a failure appends the symbol to `missing_symbols`. -/
def collectPrices (fetch : String → Option Series) (symbols : List String)
    (acc : List (String × Series) × List String) :
    List (String × Series) × List String :=
  symbols.foldl
    (fun acc s =>
      match fetch s with
      | some ser => (acc.1 ++ [(s, ser)], acc.2)
      | none => (acc.1, acc.2 ++ [s]))
    acc

/-- `get_historical_prices` (data.py lines 292-354), returning
(matrix columns, missing symbols). -/
def getHistoricalPrices (fetch : String → Option Series) (symbols : List String) :
    List (String × Series) × List String :=
  let validSymbols := symbols.filter (fun s => (symbolToId s).isSome)
  if validSymbols.isEmpty then
    ([], [])
  else
    let acc := collectPrices fetch validSymbols ([], [])
    if acc.1.isEmpty then ([], validSymbols) else (acc.1, acc.2)

/-! ## Data Validator (src/optimizer.py, lines 17-69)

A pandas DataFrame of prices is modelled column-wise:
a list of `(column name, cells)` where a cell is `Option ℚ` (`none` = NaN).
`len(df)` is the length of the shared index, i.e. of any column. -/

/-- A price DataFrame, as a list of named columns. -/
abbrev PriceDF := List (String × List (Option ℚ))

/-- `len(df)`: the shared index length (length of the first column; 0 if no
columns). -/
def nRows (df : PriceDF) : Nat :=
  match df with
  | [] => 0
  | c :: _ => c.2.length

/-- Forward fill of one column, carrying the last seen value. -/
def ffillCol (last : Option ℚ) : List (Option ℚ) → List (Option ℚ)
  | [] => []
  | some v :: t => some v :: ffillCol (some v) t
  | none :: t => last :: ffillCol last t

/-- Backward fill of one column: forward fill of the reversed column. -/
def bfillCol (l : List (Option ℚ)) : List (Option ℚ) :=
  (ffillCol none l.reverse).reverse

/-- `df.ffill()`: forward fill every column. -/
def ffillDF (df : PriceDF) : PriceDF :=
  df.map (fun c => (c.1, ffillCol none c.2))

/-- `df.bfill()`: backward fill every column. -/
def bfillDF (df : PriceDF) : PriceDF :=
  df.map (fun c => (c.1, bfillCol c.2))

/-- `df.isna().mean().mean() * 100` (optimizer.py line 40): the mean over
columns of each column's NaN fraction, as a percentage.  (pandas yields NaN
for an empty mean; that case is mapped to 0, which like NaN fails the
strict `> 5` comparison downstream.) -/
def missingPct (df : PriceDF) : ℚ :=
  let colFrac := fun (cells : List (Option ℚ)) =>
    if cells.length = 0 then 0
    else ((cells.countP (fun x => x.isNone)) : ℚ) / (cells.length : ℚ)
  if df.length = 0 then 0
  else ((df.map (fun c => colFrac c.2)).sum / (df.length : ℚ)) * 100

/-- `df.pct_change()` on one column: first cell NaN, then
`(v_i - v_{i-1}) / v_{i-1}`; any NaN operand propagates.  (Prices here are
positive, so the `v_{i-1} = 0` division case does not arise.) -/
def pctChangeCol (cells : List (Option ℚ)) : List (Option ℚ) :=
  match cells with
  | [] => []
  | _ :: t =>
      none :: List.zipWith
        (fun prev cur =>
          match prev, cur with
          | some p, some c => some ((c - p) / p)
          | _, _ => none)
        cells t

/-- `df.pct_change()` column-wise. -/
def pctChangeDF (df : PriceDF) : PriceDF :=
  df.map (fun c => (c.1, pctChangeCol c.2))

/-- Is row `i` free of NaN in every column? -/
def rowComplete (df : PriceDF) (i : Nat) : Bool :=
  df.all (fun c => (c.2.getD i none).isSome)

/-- `df.dropna()`: keep exactly the rows that are NaN-free in every column. -/
def dropnaRows (df : PriceDF) : PriceDF :=
  let keep := (List.range (nRows df)).filter (fun i => rowComplete df i)
  df.map (fun c => (c.1, keep.map (fun i => c.2.getD i none)))

/-- The value of column `c` at row `i` (0 for a NaN cell; used only after
`dropnaRows`, where every cell is present). -/
def cellVal (cells : List (Option ℚ)) (i : Nat) : ℚ :=
  (cells.getD i none).getD 0

/-- `(daily_returns.abs() > 0.3).any(axis=1).sum()` (optimizer.py lines 52-53). -/
def extremeDays (returns_df : PriceDF) : Nat :=
  ((List.range (nRows returns_df)).filter
    (fun i => returns_df.any (fun c => (3 : ℚ)/10 < |cellVal c.2 i|))).length

/-- `(daily_returns.abs() < 0.0001).all(axis=1).sum()` (optimizer.py line 58). -/
def staleDays (returns_df : PriceDF) : Nat :=
  ((List.range (nRows returns_df)).filter
    (fun i => returns_df.all (fun c => |cellVal c.2 i| < (1 : ℚ)/10000))).length

/-- Mean of a list of rationals (0 for the empty list, like the 0/0 case). -/
def listMean (l : List ℚ) : ℚ :=
  if l.length = 0 then 0 else l.sum / (l.length : ℚ)

/-- Sum of squared deviations from the mean (`n · σ²` with `ddof = 0`). -/
def listSqDev (l : List ℚ) : ℚ :=
  (l.map (fun x => (x - listMean l) ^ 2)).sum

/-- `|z-score| > 3` for value `r` within column `c`
(`stats.zscore`, ddof 0): `|r - μ| / σ > 3  ⟺  n·(r-μ)² > 9·Σ(x-μ)²`,
stated multiplicatively to stay inside ℚ.  When σ = 0 the z-score is NaN in
scipy and the comparison is false; here both sides are 0 and `<` is false. -/
def zOutlier (c : List ℚ) (r : ℚ) : Prop :=
  9 * listSqDev c < (c.length : ℚ) * (r - listMean c) ^ 2

instance (c : List ℚ) (r : ℚ) : Decidable (zOutlier c r) := by
  unfold zOutlier
  infer_instance

/-- `(np.abs(z_scores) > 3).any(axis=1).sum()` (optimizer.py lines 64-65). -/
def outlierDays (returns_df : PriceDF) : Nat :=
  ((List.range (nRows returns_df)).filter
    (fun i => returns_df.any
      (fun c => decide (zOutlier (c.2.map (fun o => o.getD 0)) (cellVal c.2 i))))).length

/-- A data-quality issue; each constructor tags one of the messages appended
to `issues` in `validate_price_data`, carrying the numbers interpolated into
that message. -/
inductive Issue where
  | insufficientPoints (available : Nat) (required : ℚ)
  | highMissing (pct : ℚ)
  | extremeMoves (days : Nat)
  | stalePrices (days : Nat)
  | outliers (count : Nat)
deriving DecidableEq

/-- The code's minimum-points threshold (optimizer.py line 33):
`min_required = min(lookback_days * 0.8, 20)`. -/
def minRequired (lookback : Nat) : ℚ :=
  min ((lookback : ℚ) * (8/10)) 20

/-- `validate_price_data` (optimizer.py lines 17-69).  Returns
`(is_valid, issues, cleaned_data)`.  On the minimum-points failure it
returns early with `cleaned_data = hist_prices.copy()`; otherwise
`cleaned_data = hist_prices.ffill().bfill()` and the remaining checks run on
the cleaned data's daily returns. -/
def validatePriceData (df : PriceDF) (lookback : Nat) :
    Bool × List Issue × PriceDF :=
  if (nRows df : ℚ) < minRequired lookback then
    (false, [Issue.insufficientPoints (nRows df) (minRequired lookback)], df)
  else
    let missing := missingPct df
    let issues1 := if 5 < missing then [Issue.highMissing missing] else []
    let valid1 := if 5 < missing then decide (¬ 20 < missing) else true
    let cleaned := bfillDF (ffillDF df)
    let dr := dropnaRows (pctChangeDF cleaned)
    let ed := extremeDays dr
    let issues2 := if 0 < ed then [Issue.extremeMoves ed] else []
    let sd := staleDays dr
    let staleFlag := (lookback : ℚ) * (1/10) < (sd : ℚ)
    let issues3 := if staleFlag then [Issue.stalePrices sd] else []
    let valid2 :=
      if staleFlag then
        (if (lookback : ℚ) * (3/10) < (sd : ℚ) then false else valid1)
      else valid1
    let oc := outlierDays dr
    let issues4 := if (lookback : ℚ) * (1/10) < (oc : ℚ) then [Issue.outliers oc] else []
    (valid2, issues1 ++ issues2 ++ issues3 ++ issues4, cleaned)

/-- Does any cell of the DataFrame hold NaN? -/
def hasMissingCell (df : PriceDF) : Bool :=
  df.any (fun c => c.2.any (fun x => x.isNone))

/-! ## Frontier Generator (src/optimizer.py, lines 72-147)

The three kinds of convex solves are external to the embedding:
* the min-volatility anchor and the max-Sharpe anchor each either fail
  (`none`) or produce a realized volatility (`some v`), lines 90-108;
* each per-target `efficient_risk` solve either fails or produces a
  `(volatility, return)` pair recorded from `portfolio_performance`,
  lines 118-127, modelled by `solve : ℚ → Option (ℚ × ℚ)`.
A frontier point `{'volatility': vol, 'return': ret}` is the pair `(vol, ret)`. -/

/-- `np.linspace a b n`: `n` evenly spaced points from `a` to `b` inclusive. -/
def linspace (a b : ℚ) (n : Nat) : List ℚ :=
  (List.range n).map (fun i => a + (b - a) * (i : ℚ) / ((n : ℚ) - 1))

/-- The 15 target volatilities (optimizer.py lines 90-114): anchors default to
0.15 / 0.4 on solver failure, then
`min_risk = min(min_vol * 0.9, 0.1)`, `max_risk = max(max_sharpe_vol * 1.5, 0.6)`,
`risk_range = np.linspace(min_risk, max_risk, 15)`. -/
def riskRange (minVolResult maxSharpeResult : Option ℚ) : List ℚ :=
  let min_vol := minVolResult.getD (15/100)
  let max_sharpe_vol := maxSharpeResult.getD (4/10)
  let min_risk := min (min_vol * (9/10)) (1/10)
  let max_risk := max (max_sharpe_vol * (15/10)) (6/10)
  linspace min_risk max_risk 15

/-- The deterministic fallback points (optimizer.py lines 132-135):
`vol = 0.2 + i*0.1`, `ret = 0.05 + vol*1.2` for `i in range(5)`. -/
def fallbackPoints : List (ℚ × ℚ) :=
  (List.range 5).map (fun i =>
    ((2 : ℚ)/10 + (i : ℚ) * (1/10),
     (5 : ℚ)/100 + ((2 : ℚ)/10 + (i : ℚ) * (1/10)) * (12/10)))

/-- `generate_efficient_frontier_data` (optimizer.py lines 72-137): solve each
target in `risk_range`, silently skipping failures; if fewer than 3 points
resulted, append the 5 fallback points to `frontier_points` (which is not
cleared first). -/
def generateEfficientFrontierData (minVolResult maxSharpeResult : Option ℚ)
    (solve : ℚ → Option (ℚ × ℚ)) : List (ℚ × ℚ) :=
  let frontier_points := (riskRange minVolResult maxSharpeResult).filterMap solve
  if frontier_points.length < 3 then frontier_points ++ fallbackPoints
  else frontier_points

/-! ## Optimizer entry point (src/optimizer.py, lines 247-465) -/

/-- The recognized preference options (optimizer.py lines 288-291); an absent
key takes the code's default. -/
structure Prefs where
  max_weight : Option ℚ := none
  min_weight : Option ℚ := none
  target_volatility : Option ℚ := none
  target_return : Option ℚ := none
deriving DecidableEq

/-- `max_weight = min(preferences.get('max_weight', 0.6), 0.8)`
(optimizer.py line 288). -/
def effMaxWeight (p : Prefs) : ℚ :=
  min ((Prefs.max_weight p).getD (6/10)) (8/10)

/-- `min_weight = max(preferences.get('min_weight', 0.05), 0.01)`
(optimizer.py line 289). -/
def effMinWeight (p : Prefs) : ℚ :=
  max ((Prefs.min_weight p).getD (1/20)) (1/100)

/-- `round(v, 4)` on an exact rational: round `v * 10⁴` to the nearest
integer and scale back.  (Python rounds exact halves to even; no statement
below depends on the tie case, and both tie rules stay within the half-ulp
bounds proved here.) -/
def round4 (q : ℚ) : ℚ :=
  ((round (q * 10000) : ℤ) : ℚ) / 10000

/-- The returned weight map (optimizer.py line 419):
`weights = {k: round(v, 4) for k, v in weights.items() if v > 0.001}` —
built from the raw solver weights with the fixed `0.001` cutoff (the
`clean_weights(cutoff=min_weight)` result of line 374 is used only for the
discrete allocation, not for the returned map). -/
def postprocessWeights (raw : List (String × ℚ)) : List (String × ℚ) :=
  (raw.filter (fun kv => (1 : ℚ)/1000 < kv.2)).map (fun kv => (kv.1, round4 kv.2))

/-- The keys of the success-path result dict (optimizer.py lines 434-453):
nine unconditional keys, then `note` and `missing_symbols` when present.
The `allocation` and `leftover` values computed at lines 394-399 are never
inserted. -/
def successResultKeys (hasNote hasMissingSymbols : Bool) : List String :=
  ["optimized_weights", "expected_return", "volatility", "sharpe_ratio",
   "efficient_frontier", "correlation_matrix", "historical_returns",
   "lookback_days", "rolling_metrics"]
  ++ (if hasNote then ["note"] else [])
  ++ (if hasMissingSymbols then ["missing_symbols"] else [])

/-- The null-weight result shape (optimizer.py lines 270-276 and 300-306):
`optimized_weights`, `expected_return`, `volatility`, `sharpe_ratio` all
`None`, plus a note. -/
structure OptResult where
  optimized_weights : Option (List (String × ℚ)) := none
  expected_return : Option ℚ := none
  volatility : Option ℚ := none
  sharpe : Option ℚ := none
  note : Option String := none
deriving DecidableEq

/-- The note of the insufficient-input early return (optimizer.py line 275). -/
def insufficientAssetsNote : String :=
  "At least 2 different assets are required for optimization."

/-- The note prefix of the no-data return (optimizer.py line 305). -/
def noDataNote : String :=
  "Not enough historical data for optimization."

/-- The input-validation prefix of `optimize_portfolio`
(optimizer.py lines 267-306): `symbols = list(holdings.keys())`; with fewer
than 2 symbols return the null result immediately — before `get_historical_prices`
is imported or called, so before any cache or provider access.  Otherwise
fetch history (logging one cache/provider access per recognized symbol) and,
if the matrix is empty or has fewer than 2 columns, return the no-data null
result; else hand off to the rest of the pipeline (`downstream`).  The
second component of the result is the log of symbols for which a
cache/provider access was made. -/
def optimizePortfolio (fetch : String → Option Series)
    (downstream : List (String × Series) → List String → OptResult)
    (holdings : List (String × ℚ)) : OptResult × List String :=
  let symbols := holdings.map Prod.fst
  if symbols.length < 2 then
    ({ note := some insufficientAssetsNote }, [])
  else
    let fetched := getHistoricalPrices fetch symbols
    let accessLog := symbols.filter (fun s => (symbolToId s).isSome)
    if fetched.1.isEmpty || fetched.1.length < 2 then
      ({ note := some noDataNote }, accessLog)
    else
      (downstream fetched.1 fetched.2, accessLog)

/-! ## Helper lemmas about forward/backward fill -/

/-- The value carried by a forward fill after traversing `xs`. -/
def carry (last : Option ℚ) : List (Option ℚ) → Option ℚ
  | [] => last
  | some v :: t => carry (some v) t
  | none :: t => carry last t

lemma ffillCol_some_isSome : ∀ (l : List (Option ℚ)) (a : ℚ),
    ∀ x ∈ ffillCol (some a) l, x.isSome := by
  intro l
  induction l with
  | nil => intro a x hx; simp [ffillCol] at hx
  | cons hd t ih =>
    intro a x hx
    cases hd with
    | some v =>
      rcases List.mem_cons.mp hx with h1 | h2
      · subst h1; rfl
      · exact ih v x h2
    | none =>
      rcases List.mem_cons.mp hx with h1 | h2
      · subst h1; rfl
      · exact ih a x h2

lemma ffillCol_of_all_isSome : ∀ (l : List (Option ℚ)) (last : Option ℚ),
    (∀ x ∈ l, x.isSome) → ffillCol last l = l := by
  intro l
  induction l with
  | nil => intro last _; rfl
  | cons hd t ih =>
    intro last h
    cases hd with
    | some v =>
      show some v :: ffillCol (some v) t = some v :: t
      rw [ih (some v) (fun x hx => h x (List.mem_cons_of_mem _ hx))]
    | none =>
      exact absurd (h none (List.mem_cons_self _ _)) (by simp)

lemma bfillCol_of_all_isSome (l : List (Option ℚ)) (h : ∀ x ∈ l, x.isSome) :
    bfillCol l = l := by
  unfold bfillCol
  rw [ffillCol_of_all_isSome _ _ (fun x hx => h x (List.mem_reverse.mp hx)),
    List.reverse_reverse]

lemma ffillCol_append : ∀ (xs ys : List (Option ℚ)) (last : Option ℚ),
    ffillCol last (xs ++ ys) = ffillCol last xs ++ ffillCol (carry last xs) ys := by
  intro xs
  induction xs with
  | nil => intro ys last; rfl
  | cons hd t ih =>
    intro ys last
    cases hd with
    | some v =>
      show some v :: ffillCol (some v) (t ++ ys) = (some v :: ffillCol (some v) t) ++ _
      rw [ih, List.cons_append]
      rfl
    | none =>
      show last :: ffillCol last (t ++ ys) = (last :: ffillCol last t) ++ _
      rw [ih, List.cons_append]
      rfl

lemma carry_some_isSome : ∀ (t : List (Option ℚ)) (v : ℚ),
    (carry (some v) t).isSome := by
  intro t
  induction t with
  | nil => intro v; rfl
  | cons hd t ih =>
    intro v
    cases hd with
    | some w => exact ih w
    | none => exact ih v

lemma carry_isSome_of_mem : ∀ (xs : List (Option ℚ)) (last : Option ℚ) (a : ℚ),
    some a ∈ xs → (carry last xs).isSome := by
  intro xs
  induction xs with
  | nil => intro last a h; simp at h
  | cons hd t ih =>
    intro last a h
    cases hd with
    | some v => exact carry_some_isSome t v
    | none =>
      rcases List.mem_cons.mp h with h1 | h2
      · exact absurd h1 (by simp)
      · exact ih last a h2

lemma mem_some_ffillCol : ∀ (l : List (Option ℚ)) (last : Option ℚ) (a : ℚ),
    some a ∈ l → ∃ b, some b ∈ ffillCol last l := by
  intro l
  induction l with
  | nil => intro last a h; simp at h
  | cons hd t ih =>
    intro last a h
    cases hd with
    | some v => exact ⟨v, List.mem_cons_self _ _⟩
    | none =>
      rcases List.mem_cons.mp h with h1 | h2
      · exact absurd h1 (by simp)
      · rcases ih last a h2 with ⟨b, hb⟩
        exact ⟨b, List.mem_cons_of_mem _ hb⟩

/-- A column with at least one present value has no missing cells after
forward fill followed by backward fill. -/
lemma filled_col_isSome : ∀ (l : List (Option ℚ)), (∃ a, some a ∈ l) →
    ∀ x ∈ bfillCol (ffillCol none l), x.isSome := by
  intro l
  induction l with
  | nil => intro h; rcases h with ⟨a, ha⟩; simp at ha
  | cons hd t ih =>
    intro h x hx
    cases hd with
    | some v =>
      have hall : ∀ y ∈ ffillCol none (some v :: t), y.isSome := by
        intro y hy
        rcases List.mem_cons.mp hy with h1 | h2
        · subst h1; rfl
        · exact ffillCol_some_isSome t v y h2
      rw [bfillCol_of_all_isSome _ hall] at hx
      exact hall x hx
    | none =>
      rcases h with ⟨a, ha⟩
      have hat : some a ∈ t := by
        rcases List.mem_cons.mp ha with h1 | h2
        · exact absurd h1 (by simp)
        · exact h2
      have hu : ffillCol none (none :: t) = none :: ffillCol none t := rfl
      rw [hu] at hx
      set u := ffillCol none t with hu_def
      have hrev : (none :: u).reverse = u.reverse ++ [none] := by
        simp
      have hc : bfillCol (none :: u) = carry none u.reverse :: bfillCol u := by
        unfold bfillCol
        rw [hrev, ffillCol_append]
        show (ffillCol none u.reverse ++ [carry none u.reverse]).reverse = _
        rw [List.reverse_append]
        rfl
      rw [hc] at hx
      rcases List.mem_cons.mp hx with h1 | h2
      · subst h1
        rcases mem_some_ffillCol t none a hat with ⟨b, hb⟩
        exact carry_isSome_of_mem u.reverse none b (List.mem_reverse.mpr hb)
      · exact ih ⟨a, hat⟩ x h2

/-! ## Claim C1 — the minimum-points threshold

Claim: the Data Validator returns the fatal invalid verdict exactly when the
row count is below `max(0.8 × lookback, 20)`.

The source (optimizer.py line 33) computes
`min_required = min(lookback_days * 0.8, 20)` — `min`, not `max` — although
its own comment on the same line says "Need at least 80% of days or 20 days
minimum", which describes `max`.  A 21-row matrix with a 60-day lookback
passes the code's check (21 ≥ min(48, 20) = 20) while the claim (and the
code's comment) require 48 rows. -/

/-- A 21-row single-column matrix of strictly doubling prices
(no missing cells, no stale days). -/
def c1Matrix : PriceDF :=
  [("BTC", (List.range 21).map (fun k => some ((2 : ℚ) ^ k)))]

/-- C1: evaluating the embedded `validate_price_data` on a 21-row matrix with
lookback 60 yields a valid verdict (no fatal minimum-points failure, and the
only issue is the non-fatal extreme-moves one), although
21 < max(0.8 × 60, 20) = 48, so the claim's threshold would reject it: the
code computes `min(0.8 × lookback, 20)` where its comment and the spec say
`max`. -/
theorem c1_min_points_eval :
    (validatePriceData c1Matrix 60).1 = true ∧
    (validatePriceData c1Matrix 60).2.1 = [Issue.extremeMoves 20] ∧
    ((nRows c1Matrix : ℚ) < max ((60 : ℚ) * (8/10)) 20) := by
  decide

/-! ## Claim C4 — cleaning on the early-return path

Claim: for every input matrix (including ones failing the fatal
minimum-points check) the returned cleaned matrix is the input
forward-filled then back-filled, hence has no missing cells.

The source returns `cleaned_data = hist_prices.copy()` — unfilled — on the
minimum-points early return (optimizer.py lines 30-37); the
ffill-then-bfill of line 46 runs only after that check passes.  Moreover
even the filled matrix keeps NaN in a column with no present value at all. -/

/-- A 2-row matrix (below every minimum-points threshold) with a missing
cell. -/
def c4CexMatrix : PriceDF := [("BTC", [some 1, none])]

/-- C4 counterexample: on a 2-row matrix with a missing cell and lookback 60
the validator short-circuits and returns the input unchanged: the returned
"cleaned" matrix still has a missing cell and is not the
forward-filled-then-back-filled input. -/
theorem c4_counterexample :
    hasMissingCell (validatePriceData c4CexMatrix 60).2.2 = true ∧
    (validatePriceData c4CexMatrix 60).2.2 ≠ bfillDF (ffillDF c4CexMatrix) := by
  decide

/-- C4 (amended): the cleaned matrix is the input forward-filled then
back-filled whenever the minimum-points check passes; on a minimum-points
failure the input is returned unchanged.  After filling, every column that
has at least one present value has no missing cells (a column with no
present value stays missing). -/
theorem c4_cleaning_amended (df : PriceDF) (lookback : Nat) :
    ((nRows df : ℚ) < minRequired lookback →
      (validatePriceData df lookback).2.2 = df) ∧
    (¬ (nRows df : ℚ) < minRequired lookback →
      (validatePriceData df lookback).2.2
        = df.map (fun c => (c.1, bfillCol (ffillCol none c.2)))) ∧
    (∀ c : String × List (Option ℚ), c ∈ df → (∃ a, some a ∈ c.2) →
      ∀ x ∈ bfillCol (ffillCol none c.2), x.isSome) := by
  refine ⟨?_, ?_, ?_⟩
  · intro h
    unfold validatePriceData
    rw [if_pos h]
  · intro h
    unfold validatePriceData
    rw [if_neg h]
    show bfillDF (ffillDF df) = _
    unfold bfillDF ffillDF
    rw [List.map_map]
    rfl
  · intro c _ hc
    exact filled_col_isSome c.2 hc

/-- C4 witness: a concrete run through each hypothesis of the amended
theorem — the 2-row matrix short-circuits and comes back unchanged, and a
20-row matrix with one missing cell comes back filled. -/
theorem c4_cleaning_amended_witness :
    (validatePriceData c4CexMatrix 60).2.2 = c4CexMatrix ∧
    (validatePriceData [("BTC", some 5 :: none :: (List.range 18).map
        (fun k => some ((k : ℚ) + 1)))] 60).2.2
      = [("BTC", some 5 :: some 5 :: (List.range 18).map
        (fun k => some ((k : ℚ) + 1)))] := by
  constructor
  · exact (c4_cleaning_amended c4CexMatrix 60).1 (by decide)
  · rw [(c4_cleaning_amended _ 60).2.1 (by decide)]
    decide

/-! ## Claim C2 — shape of the returned weight map

Claim: for every successful run the returned weights sum to at most 1, each
lies in [0, effective max_weight], and no weight below the effective
min_weight appears.

The source builds the returned map from the *raw* solver weights with the
fixed cutoff `0.001` (optimizer.py line 419); `clean_weights(cutoff=min_weight)`
(line 374) only feeds the discrete allocation.  So sub-min_weight weights can
be returned, and the 4-decimal rounding can push the sum of a weight vector
that sums to exactly 1 slightly above 1. -/

lemma round4_bounds (q : ℚ) : q - 1/20000 ≤ round4 q ∧ round4 q ≤ q + 1/20000 := by
  have h := abs_sub_round (q * 10000)
  rw [abs_le] at h
  unfold round4
  constructor <;> [linarith [h.2]; linarith [h.1]]

lemma round4_ge_milli (q : ℚ) (h : (1 : ℚ)/1000 < q) : (1 : ℚ)/1000 ≤ round4 q := by
  have h1 := (abs_le.mp (abs_sub_round (q * 10000))).2
  have h9 : (9 : ℚ) < ((round (q * 10000) : ℤ) : ℚ) := by linarith
  have h9' : (9 : ℤ) < round (q * 10000) := by exact_mod_cast h9
  have h10 : (10 : ℚ) ≤ ((round (q * 10000) : ℤ) : ℚ) := by
    exact_mod_cast h9'
  unfold round4
  linarith

lemma postprocess_mem (raw : List (String × ℚ)) (kv' : String × ℚ)
    (h : kv' ∈ postprocessWeights raw) :
    ∃ kv ∈ raw, (1 : ℚ)/1000 < kv.2 ∧ kv' = (kv.1, round4 kv.2) := by
  unfold postprocessWeights at h
  rcases List.mem_map.mp h with ⟨kv, hkv, rfl⟩
  rcases List.mem_filter.mp hkv with ⟨hmem, hdec⟩
  exact ⟨kv, hmem, of_decide_eq_true hdec, rfl⟩

lemma postprocess_sum_le (raw : List (String × ℚ)) (h : ∀ kv ∈ raw, 0 ≤ kv.2) :
    ((postprocessWeights raw).map Prod.snd).sum
      ≤ (raw.map Prod.snd).sum
        + ((postprocessWeights raw).length : ℚ) * (1/20000) := by
  induction raw with
  | nil => simp [postprocessWeights]
  | cons kv t ih =>
    have ht : ∀ x ∈ t, 0 ≤ x.2 := fun x hx => h x (List.mem_cons_of_mem _ hx)
    have hkv : 0 ≤ kv.2 := h kv (List.mem_cons_self _ _)
    by_cases hc : ((1000 : ℚ))⁻¹ < kv.2
    · have hexp : postprocessWeights (kv :: t)
          = (kv.1, round4 kv.2) :: postprocessWeights t := by
        simp [postprocessWeights, List.filter_cons, hc]
      rw [hexp]
      have hr := (round4_bounds kv.2).2
      have := ih ht
      simp only [List.map_cons, List.sum_cons, List.length_cons]
      push_cast
      linarith
    · have hexp : postprocessWeights (kv :: t) = postprocessWeights t := by
        simp [postprocessWeights, List.filter_cons, hc]
      rw [hexp]
      have := ih ht
      simp only [List.map_cons, List.sum_cons]
      linarith

/-- The raw solver output of the C2 counterexample: three weights obeying the
solver constraints (each in `[0, max_weight]`, summing to exactly 1). -/
def c2RawWeights : List (String × ℚ) :=
  [("A", 3336/100000), ("B", 56336/100000), ("C", 40328/100000)]

/-- The empty/default preferences object. -/
def defaultPrefs : Prefs := {}

/-- C2 counterexample: raw solver weights (0.03336, 0.56336, 0.40328) satisfy
the solver constraints for the default preferences (each within
[0, effective max_weight = 0.6], summing to 1), yet the returned map rounds
to (0.0334, 0.5634, 0.4033): its sum is 1.0001 > 1 and the weight 0.0334 is
below the effective min_weight 0.05. -/
theorem c2_counterexample :
    (∀ kv ∈ c2RawWeights, 0 ≤ kv.2 ∧ kv.2 ≤ effMaxWeight defaultPrefs) ∧
    (c2RawWeights.map Prod.snd).sum = 1 ∧
    ¬ ((postprocessWeights c2RawWeights).map Prod.snd).sum ≤ 1 ∧
    (∃ kv ∈ postprocessWeights c2RawWeights, kv.2 < effMinWeight defaultPrefs) := by
  decide

/-- C2 (amended): for raw solver weights within the solver constraints
(each in [0, effective max_weight], summing to 1), every weight of the
returned map lies in [0.001, effective max_weight + 0.00005] — only the
0.001 cutoff is enforced, not the effective min_weight — and the sum of the
returned map is at most 1 + 0.00005 per returned entry. -/
theorem c2_weight_map_amended (raw : List (String × ℚ)) (p : Prefs)
    (hw : ∀ kv ∈ raw, 0 ≤ kv.2 ∧ kv.2 ≤ effMaxWeight p)
    (hs : (raw.map Prod.snd).sum = 1) :
    (∀ kv ∈ postprocessWeights raw,
      (1 : ℚ)/1000 ≤ kv.2 ∧ kv.2 ≤ effMaxWeight p + 1/20000) ∧
    ((postprocessWeights raw).map Prod.snd).sum
      ≤ 1 + ((postprocessWeights raw).length : ℚ) * (1/20000) := by
  constructor
  · intro kv' h'
    rcases postprocess_mem raw kv' h' with ⟨kv, hmem, hgt, rfl⟩
    refine ⟨round4_ge_milli kv.2 hgt, ?_⟩
    have h2 := (round4_bounds kv.2).2
    have h3 := (hw kv hmem).2
    simp only
    linarith
  · have h := postprocess_sum_le raw (fun kv hkv => (hw kv hkv).1)
    rw [hs] at h
    exact h

/-- C2 witness: the amended theorem applied to the concrete raw weights
(1/2, 1/2) with default preferences. -/
theorem c2_weight_map_amended_witness :
    ((postprocessWeights [("A", (1 : ℚ)/2), ("B", (1 : ℚ)/2)]).map Prod.snd).sum
      ≤ 1 + ((postprocessWeights [("A", (1 : ℚ)/2), ("B", (1 : ℚ)/2)]).length : ℚ)
          * (1/20000) :=
  (c2_weight_map_amended [("A", (1 : ℚ)/2), ("B", (1 : ℚ)/2)] defaultPrefs
    (by decide) (by decide)).2

/-! ## Claim C5 — frontier fallback and ordering

Claim: the frontier output is in non-decreasing volatility order with ≥ 3
points, and with fewer than 3 successful solves all solved points are
discarded in favour of exactly the 5 deterministic points.

The source appends the fallback points to `frontier_points` without
clearing it (optimizer.py lines 130-135), so solved points are kept, and
nothing sorts the final list. -/

/-- A solve oracle for the C5 counterexample: only the first target (0.1)
solves, with realized volatility 0.5 and return 0.45. -/
def c5Solve : ℚ → Option (ℚ × ℚ) :=
  fun t => if t = 1/10 then some (1/2, 9/20) else none

/-- C5 counterexample: with anchors 0.3 / 0.4 and exactly one successful
solve (volatility 0.5), the output is the solved point followed by the 5
fallback points — 6 points, not the 5 deterministic ones, and the
volatilities (0.5, 0.2, 0.3, ...) are not in non-decreasing order. -/
theorem c5_counterexample :
    ¬ (List.Pairwise (· ≤ ·)
        ((generateEfficientFrontierData (some (3/10)) (some (2/5)) c5Solve).map
          Prod.fst) ∧
       3 ≤ (generateEfficientFrontierData (some (3/10)) (some (2/5)) c5Solve).length ∧
       (((riskRange (some (3/10)) (some (2/5))).filterMap c5Solve).length < 3 →
         generateEfficientFrontierData (some (3/10)) (some (2/5)) c5Solve
           = fallbackPoints)) := by
  decide

/-- C5 (amended): the frontier output always has at least 3 points; when
fewer than 3 targets solve, the 5 deterministic fallback points
(volatility 0.2 + 0.1·i, return 0.05 + 1.2·volatility) are appended after
the solved points rather than replacing them; when no solve succeeds the
output is exactly the 5 fallback points, which are in increasing
volatility order — but the output is not sorted in general. -/
theorem c5_frontier_amended (mv ms : Option ℚ) (solve : ℚ → Option (ℚ × ℚ)) :
    3 ≤ (generateEfficientFrontierData mv ms solve).length ∧
    (((riskRange mv ms).filterMap solve).length < 3 →
      generateEfficientFrontierData mv ms solve
        = (riskRange mv ms).filterMap solve ++ fallbackPoints) ∧
    ((∀ t ∈ riskRange mv ms, solve t = none) →
      generateEfficientFrontierData mv ms solve = fallbackPoints ∧
      List.Pairwise (· ≤ ·) (fallbackPoints.map Prod.fst)) := by
  unfold generateEfficientFrontierData
  by_cases hlen : ((riskRange mv ms).filterMap solve).length < 3
  · rw [if_pos hlen]
    refine ⟨?_, fun _ => rfl, ?_⟩
    · rw [List.length_append]
      have h5 : fallbackPoints.length = 5 := by decide
      omega
    · intro hnone
      have hnil : (riskRange mv ms).filterMap solve = [] :=
        List.filterMap_eq_nil_iff.mpr hnone
      rw [hnil, List.nil_append]
      exact ⟨rfl, by decide⟩
  · rw [if_neg hlen]
    refine ⟨by omega, fun h => absurd h hlen, ?_⟩
    intro hnone
    have hnil : (riskRange mv ms).filterMap solve = [] :=
      List.filterMap_eq_nil_iff.mpr hnone
    rw [hnil] at hlen
    simp at hlen

/-- C5 witness: the amended theorem at the all-failing oracle — the output
is exactly the fallback points. -/
theorem c5_frontier_amended_witness :
    generateEfficientFrontierData none none (fun _ => none) = fallbackPoints :=
  ((c5_frontier_amended none none (fun _ => none)).2.2 (fun _ _ => rfl)).1

/-! ## Claim C6 — the target-volatility range

Claim: the 15 linearly spaced targets run from `max(0.9×minVol, 0.1)` up to
`max(1.5×maxSharpeVol, 0.6)`, with anchor fallbacks 0.15 / 0.4.

The source (optimizer.py line 112) computes
`min_risk = min(min_vol * 0.9, 0.1)` — `min`, not `max` — although its own
comment on that line says "At least 10% volatility", which describes `max`
(and matches the claim). -/

/-- C6: with a successful min-volatility anchor of 0.3 (and max-Sharpe
anchor 0.4), the embedded code builds 15 targets starting at
min(0.27, 0.1) = 0.1, whereas the claim's lower end is
max(0.9 × 0.3, 0.1) = 0.27 ≠ 0.1: the code computes `min` where its
comment and the spec say `max`.  (The upper end, max(0.6, 0.6) = 0.6,
matches the claim.) -/
theorem c6_range_lower_end_eval :
    (riskRange (some (3/10)) (some (2/5))).length = 15 ∧
    (riskRange (some (3/10)) (some (2/5))).head? = some (1/10) ∧
    max ((9 : ℚ)/10 * (3/10)) (1/10) = 27/100 ∧
    (1 : ℚ)/10 ≠ 27/100 ∧
    (riskRange (some (3/10)) (some (2/5))).getLast? = some (3/5) := by
  decide

/-! ## Claim C7 — the discrete allocation never reaches the result

Claim: when live prices cover every weight-map symbol the returned result
contains the discrete allocation; when a price is missing, allocation is
absent without an error.

The source computes `allocation, leftover = da.greedy_portfolio()` and
`leftover_pct` (optimizer.py lines 394-399) but the result dict assembled at
lines 434-453 never receives an `allocation` (or `leftover`) key, so the
allocation is absent from the result in every case. -/

/-- C7: no configuration of the success-path result dict contains an
`allocation` key — the computed discrete allocation is dropped in all four
note/missing-symbols configurations. -/
theorem c7_allocation_key_absent :
    "allocation" ∉ successResultKeys false false ∧
    "allocation" ∉ successResultKeys false true ∧
    "allocation" ∉ successResultKeys true false ∧
    "allocation" ∉ successResultKeys true true := by
  decide

/-! ## Claim C8 — insufficient-input short circuit -/

/-- C8: for holdings with fewer than 2 distinct symbols (dict keys are
distinct), `optimize_portfolio` returns the null-weight result with the
explanatory note, and the cache/provider access log is empty — the early
return precedes any data fetch. -/
theorem c8_insufficient_input (fetch : String → Option Series)
    (downstream : List (String × Series) → List String → OptResult)
    (holdings : List (String × ℚ))
    (hnd : (holdings.map Prod.fst).Nodup)
    (hlt : (holdings.map Prod.fst).dedup.length < 2) :
    optimizePortfolio fetch downstream holdings
      = ({ optimized_weights := none, expected_return := none, volatility := none,
           sharpe := none, note := some insufficientAssetsNote }, []) := by
  have hlen : (holdings.map Prod.fst).length < 2 := by
    rwa [List.dedup_eq_self.mpr hnd] at hlt
  unfold optimizePortfolio
  rw [if_pos hlen]

/-- C8 witness: a single-asset holdings map short-circuits with the note and
an empty access log. -/
theorem c8_insufficient_input_witness :
    optimizePortfolio (fun _ => none) (fun _ _ => ({} : OptResult)) [("BTC", (1 : ℚ))]
      = ({ optimized_weights := none, expected_return := none, volatility := none,
           sharpe := none, note := some insufficientAssetsNote }, []) :=
  c8_insufficient_input (fun _ => none) (fun _ _ => ({} : OptResult))
    [("BTC", (1 : ℚ))] (by decide) (by decide)

/-! ## Claim C9 — cache TTL round trip

Claim: a read while `now - fetchedAt < 24h` returns the identical stored
series, and any read when `now - fetchedAt` is *not below* 24h is a miss.

The source expires with the strict comparison `cache_age > 24 * 3600`
(data.py line 91), so a read at exactly 24 hours still returns the data. -/

/-- C9 counterexample: a series written at time 0 and read at exactly
86400 s (24 h, so `now - fetchedAt < 24h` fails) is still returned, not a
miss. -/
theorem c9_counterexample :
    loadFromCache (saveToCache [] ("bitcoin", 60) 0 [((0 : Int), (100 : ℚ))])
        ("bitcoin", 60) 86400
      = some [((0 : Int), (100 : ℚ))] ∧
    ¬ ((86400 : ℚ) - 0 < 24 * 3600) := by
  constructor
  · rfl
  · norm_num

/-- C9 (amended): writing a series and reading it back returns the identical
stored series whenever `now - fetchedAt ≤ 24h`, and is a miss exactly when
`now - fetchedAt > 24h`. -/
theorem c9_cache_ttl_amended (c : Cache) (key : CacheKey) (tw tr : ℚ)
    (data : Series) :
    (tr - tw ≤ 24 * 3600 →
      loadFromCache (saveToCache c key tw data) key tr = some data) ∧
    (24 * 3600 < tr - tw →
      loadFromCache (saveToCache c key tw data) key tr = none) := by
  unfold loadFromCache saveToCache
  have hl : List.lookup key ((key, (tw, data)) :: c) = some (tw, data) := by
    simp [List.lookup]
  rw [hl]
  constructor
  · intro h
    show (if tr - tw > 24 * 3600 then none else some data) = some data
    rw [if_neg (not_lt.mpr h)]
  · intro h
    show (if tr - tw > 24 * 3600 then none else some data) = none
    rw [if_pos h]

/-- C9 witness: write at time 0, read at one hour — the stored series comes
back. -/
theorem c9_cache_ttl_amended_witness :
    loadFromCache (saveToCache [] ("bitcoin", 60) 0 [((0 : Int), (100 : ℚ))])
        ("bitcoin", 60) 3600
      = some [((0 : Int), (100 : ℚ))] :=
  (c9_cache_ttl_amended [] ("bitcoin", 60) 0 3600 [((0 : Int), (100 : ℚ))]).1
    (by norm_num)

/-! ## Helper lemmas about the History Store accumulation loop -/

lemma collectPrices_cons (fetch : String → Option Series) (s : String)
    (t : List String) (acc : List (String × Series) × List String) :
    collectPrices fetch (s :: t) acc
      = collectPrices fetch t
          (match fetch s with
           | some ser => (acc.1 ++ [(s, ser)], acc.2)
           | none => (acc.1, acc.2 ++ [s])) := rfl

lemma collect_mem_cols (fetch : String → Option Series) :
    ∀ (l : List String) (acc : List (String × Series) × List String)
      (p : String × Series),
      p ∈ (collectPrices fetch l acc).1 →
      p ∈ acc.1 ∨ (p.1 ∈ l ∧ fetch p.1 = some p.2) := by
  intro l
  induction l with
  | nil => intro acc p h; exact Or.inl h
  | cons s t ih =>
    intro acc p h
    rw [collectPrices_cons] at h
    cases hfs : fetch s with
    | some ser =>
      rw [hfs] at h
      rcases ih _ p h with h1 | h2
      · rcases List.mem_append.mp h1 with ha | hb
        · exact Or.inl ha
        · have hps : p = (s, ser) := by simpa using hb
          subst hps
          exact Or.inr ⟨List.mem_cons_self _ _, hfs⟩
      · exact Or.inr ⟨List.mem_cons_of_mem _ h2.1, h2.2⟩
    | none =>
      rw [hfs] at h
      rcases ih _ p h with h1 | h2
      · exact Or.inl h1
      · exact Or.inr ⟨List.mem_cons_of_mem _ h2.1, h2.2⟩

lemma collect_mem_missing (fetch : String → Option Series) :
    ∀ (l : List String) (acc : List (String × Series) × List String)
      (s : String),
      s ∈ (collectPrices fetch l acc).2 →
      s ∈ acc.2 ∨ (s ∈ l ∧ fetch s = none) := by
  intro l
  induction l with
  | nil => intro acc s h; exact Or.inl h
  | cons x t ih =>
    intro acc s h
    rw [collectPrices_cons] at h
    cases hfx : fetch x with
    | some ser =>
      rw [hfx] at h
      rcases ih _ s h with h1 | h2
      · exact Or.inl h1
      · exact Or.inr ⟨List.mem_cons_of_mem _ h2.1, h2.2⟩
    | none =>
      rw [hfx] at h
      rcases ih _ s h with h1 | h2
      · rcases List.mem_append.mp h1 with ha | hb
        · exact Or.inl ha
        · have hsx : s = x := by simpa using hb
          subst hsx
          exact Or.inr ⟨List.mem_cons_self _ _, hfx⟩
      · exact Or.inr ⟨List.mem_cons_of_mem _ h2.1, h2.2⟩

lemma collect_all_none (fetch : String → Option Series) :
    ∀ (l : List String) (acc : List (String × Series) × List String),
      (∀ s ∈ l, fetch s = none) →
      collectPrices fetch l acc = (acc.1, acc.2 ++ l) := by
  intro l
  induction l with
  | nil => intro acc _; simp [collectPrices]
  | cons s t ih =>
    intro acc h
    rw [collectPrices_cons, h s (List.mem_cons_self _ _),
      ih _ (fun x hx => h x (List.mem_cons_of_mem _ hx))]
    simp

lemma ghp_cols_spec (fetch : String → Option Series) (symbols : List String) :
    ∀ p ∈ (getHistoricalPrices fetch symbols).1,
      (p.1 ∈ symbols ∧ (symbolToId p.1).isSome) ∧ fetch p.1 = some p.2 := by
  intro p hp
  unfold getHistoricalPrices at hp
  by_cases h1 : (symbols.filter (fun s => (symbolToId s).isSome)).isEmpty
  · rw [if_pos h1] at hp
    simp at hp
  · rw [if_neg h1] at hp
    by_cases h2 : (collectPrices fetch
        (symbols.filter (fun s => (symbolToId s).isSome)) ([], [])).1.isEmpty
    · rw [if_pos h2] at hp
      simp at hp
    · rw [if_neg h2] at hp
      rcases collect_mem_cols fetch _ ([], []) p hp with ha | hb
      · simp at ha
      · have hf := List.mem_filter.mp hb.1
        exact ⟨⟨hf.1, hf.2⟩, hb.2⟩

lemma ghp_missing_spec (fetch : String → Option Series) (symbols : List String) :
    ∀ s ∈ (getHistoricalPrices fetch symbols).2,
      s ∈ symbols ∧ (symbolToId s).isSome := by
  intro s hs
  unfold getHistoricalPrices at hs
  by_cases h1 : (symbols.filter (fun s => (symbolToId s).isSome)).isEmpty
  · rw [if_pos h1] at hs
    simp at hs
  · rw [if_neg h1] at hs
    by_cases h2 : (collectPrices fetch
        (symbols.filter (fun s => (symbolToId s).isSome)) ([], [])).1.isEmpty
    · rw [if_pos h2] at hs
      have hf := List.mem_filter.mp hs
      exact ⟨hf.1, hf.2⟩
    · rw [if_neg h2] at hs
      rcases collect_mem_missing fetch _ ([], []) s hs with ha | hb
      · simp at ha
      · have hf := List.mem_filter.mp hb.1
        exact ⟨hf.1, hf.2⟩

lemma ghp_missing_fetch (fetch : String → Option Series) (symbols : List String) :
    ∀ s ∈ (getHistoricalPrices fetch symbols).2,
      (getHistoricalPrices fetch symbols).1 = [] ∨ fetch s = none := by
  intro s hs
  unfold getHistoricalPrices at hs ⊢
  by_cases h1 : (symbols.filter (fun s => (symbolToId s).isSome)).isEmpty
  · rw [if_pos h1] at hs
    simp at hs
  · rw [if_neg h1] at hs ⊢
    by_cases h2 : (collectPrices fetch
        (symbols.filter (fun s => (symbolToId s).isSome)) ([], [])).1.isEmpty
    · rw [if_pos h2]
      exact Or.inl rfl
    · rw [if_neg h2] at hs ⊢
      rcases collect_mem_missing fetch _ ([], []) s hs with ha | hb
      · simp at ha
      · exact Or.inr hb.2

lemma ghp_all_none (fetch : String → Option Series) (symbols : List String)
    (h : ∀ s ∈ symbols.filter (fun s => (symbolToId s).isSome), fetch s = none) :
    getHistoricalPrices fetch symbols
      = ([], symbols.filter (fun s => (symbolToId s).isSome)) := by
  unfold getHistoricalPrices
  by_cases h1 : (symbols.filter (fun s => (symbolToId s).isSome)).isEmpty
  · rw [if_pos h1, List.isEmpty_iff.mp h1]
  · rw [if_neg h1, collect_all_none fetch _ ([], []) h]
    simp

/-! ## Claim C10 — matrix/missing-list invariants of the History Store -/

/-- C10: the matrix columns and the missing list of `get_historical_prices`
are disjoint; both contain only input symbols recognized by the provider
table; and when every recognized symbol's fetch fails, the matrix is empty
and the missing list is exactly the recognized input symbols. -/
theorem c10_matrix_missing_invariants (fetch : String → Option Series)
    (symbols : List String) :
    (∀ s ∈ (getHistoricalPrices fetch symbols).1.map Prod.fst,
       s ∉ (getHistoricalPrices fetch symbols).2) ∧
    (∀ s ∈ (getHistoricalPrices fetch symbols).1.map Prod.fst,
       s ∈ symbols ∧ (symbolToId s).isSome) ∧
    (∀ s ∈ (getHistoricalPrices fetch symbols).2,
       s ∈ symbols ∧ (symbolToId s).isSome) ∧
    ((∀ s ∈ symbols.filter (fun s => (symbolToId s).isSome), fetch s = none) →
       getHistoricalPrices fetch symbols
         = ([], symbols.filter (fun s => (symbolToId s).isSome))) := by
  refine ⟨?_, ?_, ghp_missing_spec fetch symbols, ghp_all_none fetch symbols⟩
  · intro s hs hmem
    rcases List.mem_map.mp hs with ⟨p, hp, rfl⟩
    have hsolved := (ghp_cols_spec fetch symbols p hp).2
    rcases ghp_missing_fetch fetch symbols p.1 hmem with hnil | hnone
    · rw [hnil] at hp
      simp at hp
    · rw [hnone] at hsolved
      exact Option.noConfusion hsolved
  · intro s hs
    rcases List.mem_map.mp hs with ⟨p, hp, rfl⟩
    exact (ghp_cols_spec fetch symbols p hp).1

/-- C10 witness: with every fetch failing, the matrix is empty and the
missing list is exactly the recognized symbols (the unknown `FOO` is not
among them). -/
theorem c10_matrix_missing_invariants_witness :
    getHistoricalPrices (fun _ => none) ["BTC", "ETH", "FOO"]
      = ([], ["BTC", "ETH"]) :=
  ((c10_matrix_missing_invariants (fun _ => none) ["BTC", "ETH", "FOO"]).2.2.2
    (fun _ _ => rfl)).trans (by decide)

/-! ## Claim C3 — unknown symbols and the missing list

Claim: a symbol unknown to the provider table is excluded from the price
matrix *and included in the returned missingSymbols list*.

The source filters unknown symbols out up front
(`valid_symbols = [s for s in symbols if s in symbol_to_id]`, data.py
line 294) and `missing_symbols` only ever accumulates recognized symbols
whose fetch failed (line 339), so an unknown symbol never appears in the
missing list. -/

/-- A fetch oracle whose every call succeeds with a one-point series. -/
def c3Fetch : String → Option Series := fun _ => some [((0 : Int), (1 : ℚ))]

/-- C3 counterexample: `FOO` is not in the provider table; on input
`["FOO", "BTC", "ETH"]` it is excluded from the matrix columns — but the
missing list is empty, so `FOO` is *not* listed in missingSymbols as the
claim states. -/
theorem c3_counterexample :
    "FOO" ∈ (["FOO", "BTC", "ETH"] : List String) ∧
    symbolToId "FOO" = none ∧
    "FOO" ∉ (getHistoricalPrices c3Fetch ["FOO", "BTC", "ETH"]).1.map Prod.fst ∧
    (getHistoricalPrices c3Fetch ["FOO", "BTC", "ETH"]).2 = [] ∧
    "FOO" ∉ (getHistoricalPrices c3Fetch ["FOO", "BTC", "ETH"]).2 := by
  decide

/-- C3 (amended): a symbol unknown to the provider table is excluded from
the returned price matrix and is also absent from the returned
missingSymbols list (which only lists recognized symbols whose fetch
failed). -/
theorem c3_unknown_symbol_amended (fetch : String → Option Series)
    (symbols : List String) (s : String) (_hs : s ∈ symbols)
    (hid : symbolToId s = none) :
    s ∉ (getHistoricalPrices fetch symbols).1.map Prod.fst ∧
    s ∉ (getHistoricalPrices fetch symbols).2 := by
  constructor
  · intro hmem
    rcases List.mem_map.mp hmem with ⟨p, hp, rfl⟩
    have h := (ghp_cols_spec fetch symbols p hp).1.2
    rw [hid] at h
    simp at h
  · intro hmem
    have h := (ghp_missing_spec fetch symbols s hmem).2
    rw [hid] at h
    simp at h

/-- C3 witness: the amended theorem at the concrete unknown symbol `FOO`. -/
theorem c3_unknown_symbol_amended_witness :
    "FOO" ∉ (getHistoricalPrices c3Fetch ["FOO", "BTC"]).1.map Prod.fst ∧
    "FOO" ∉ (getHistoricalPrices c3Fetch ["FOO", "BTC"]).2 :=
  c3_unknown_symbol_amended c3Fetch ["FOO", "BTC"] "FOO" (by decide) rfl

end CryptoOpt
